import Mathlib

/-!
Shallow embedding of the goholint emulator core: the PPU pixel fetcher
(`ppu/fetcher.go`), the scanline mode controller (`ppu/ppu.go`) and the APU
wave channel (`apu/wave.go`).  Go machine integers are modelled as `Nat`
with explicit `% 2^w` where the code can overflow; byte-addressable memory
collaborators are modelled as functions `Nat → Nat` whose values are
normalised modulo 256 at each read (the Go interface returns `uint8`).
-/

/-- States of the `ppu/states` package: the fetcher states and the
scanline-controller states share one enumeration. -/
inductive State where
  | ReadTileID
  | ReadTileData0
  | ReadTileData1
  | PushToFIFO
  | ReadSpriteID
  | ReadSpriteFlags
  | ReadSpriteData0
  | ReadSpriteData1
  | MixInFIFO
  | OAMSearch
  | PixelTransfer
  | HBlank
  | VBlank
  deriving DecidableEq, Repr

/-- Modelled from the spec: the Pixel Queue (`fifo` package, not among the
provided sources) is a bounded sequence of color indices; `Push` enqueues one
index at the back. -/
def FIFO.Push (q : List Nat) (v : Nat) : List Nat := q ++ [v]

/-- Modelled from the spec: `Size` is the number of queued indices. -/
def FIFO.Size (q : List Nat) : Nat := q.length

/-- Modelled from the spec: `Clear` empties the queue. -/
def FIFO.Clear (_ : List Nat) : List Nat := []

/-- Modelled from the spec: `Mix` replaces/combines the element at a given
offset with a sprite pixel without changing queue length (the `fifo` package
is not among the provided sources). -/
def FIFO.Mix (q : List Nat) (i : Nat) (v : Nat) : List Nat := q.set i v

/-- Modelled from the spec: the consumer `Pop` removes one index at a time
and signals emptiness distinctly from a value. -/
def FIFO.Pop (q : List Nat) : Option (Nat × List Nat) :=
  match q with
  | [] => none
  | v :: rest => some (v, rest)

/-- Sprite OAM record (`ppu.Sprite`, defined in a source file not provided).
Modelled from the spec: sprite screen/OAM position; the fetcher only consults
the OAM `Address` field. -/
structure Sprite where
  X : Nat := 0
  Y : Nat := 0
  Address : Nat := 0
  deriving DecidableEq, Repr

/-- Modelled from the spec: sprite attribute flag for horizontal pixel flip
(the constant's defining file is not among the sources; value is the
hardware's OAM flag bit 5). -/
def SpriteFlipX : Nat := 0x20

/-- Modelled from the spec: sprite attribute flag for vertical pixel flip
(OAM flag bit 6). -/
def SpriteFlipY : Nat := 0x40

/-- `ClockFactor` (ppu/ppu.go:18): number of master-clock ticks per
state-machine step.  It is a package variable, so the tick functions below
take it as an explicit parameter; this is its default value. -/
def ClockFactor : Nat := 2

/-- Go `int8(b)` conversion of a byte value. -/
def int8 (b : Nat) : Int :=
  if b % 256 < 128 then (b % 256 : Int) else (b % 256 : Int) - 256

/-- Go conversion of a (possibly negative) `int` to `uint`, wrapping modulo
`2^64`. -/
def uintOfInt (i : Int) : Nat := (i % (2 ^ 64 : Int)).toNat

/-- `Fetcher` (ppu/fetcher.go:9-30).  The embedded `fifo` pointer is
represented by the queue contents; the `vRAM` collaborator is passed to the
functions that read it. -/
structure Fetcher where
  Enabled : Bool := false
  fifo : List Nat := []
  ticks : Nat := 0
  state : State := State.ReadTileID
  oldState : State := State.ReadTileID
  mapAddr : Nat := 0
  dataAddr : Nat := 0
  tileOffset : Nat := 0
  tileLine : Nat := 0
  signedID : Bool := false
  tileID : Nat := 0
  tileData : List Nat := List.replicate 8 0
  sprite : Sprite := {}
  spriteID : Nat := 0
  spriteFlags : Nat := 0
  spriteOffset : Nat := 0
  spriteLine : Nat := 0
  spriteData : List Nat := List.replicate 8 0
  deriving DecidableEq, Repr

/-- `Fetcher.ReadTileLine` (ppu/fetcher.go:121-150): update the 8-pixel
buffer with the LSB or MSB tile line.  The loop runs `bitPos` from 7 down
to 0; with the horizontal-flip flag the pixel index is `bitPos`, otherwise
`7 - bitPos`; bit-plane 0 replaces the buffer entry, bit-plane 1 ORs in the
high bit. -/
def ReadTileLine (vRAM : Nat → Nat) (bitPlane : Nat) (tileDataAddr : Nat)
    (tileID : Nat) (signedID : Bool) (tileLine : Nat) (flags : Nat)
    (data : List Nat) : List Nat :=
  let offset : Nat :=
    if signedID then uintOfInt ((tileDataAddr : Int) + int8 tileID * 16)
    else tileDataAddr + tileID * 16
  let line : Nat :=
    if flags &&& SpriteFlipY ≠ 0 then (263 - tileLine % 256) % 256 else tileLine
  let addr := offset + line * 2
  let pixelData := vRAM (addr + bitPlane) % 256
  (List.range 8).foldr
    (fun bitPos d =>
      let pixelIndex := if flags &&& SpriteFlipX ≠ 0 then bitPos else 7 - bitPos
      d.set pixelIndex
        (if bitPlane = 0 then (pixelData >>> bitPos) &&& 1
         else (d.getD pixelIndex 0) ||| (((pixelData >>> bitPos) &&& 1) <<< 1)))
    data

/-- `Fetcher.Start` (ppu/fetcher.go:34-41): arm a background/window fetch,
reset to `ReadTileID`, enable the machine and clear the queue. -/
def Fetcher.Start (f : Fetcher) (mapAddr dataAddr tileOffset tileLine : Nat)
    (signedID : Bool) : Fetcher :=
  { f with
    mapAddr := mapAddr, dataAddr := dataAddr
    tileOffset := tileOffset, tileLine := tileLine
    signedID := signedID
    state := State.ReadTileID
    Enabled := true
    fifo := FIFO.Clear f.fifo }

/-- `Fetcher.FetchSprite` (ppu/fetcher.go:45-50): save the current state and
switch to the sprite path. -/
def Fetcher.FetchSprite (f : Fetcher) (sprite : Sprite)
    (spriteOffset spriteLine : Nat) : Fetcher :=
  { f with
    sprite := sprite
    spriteOffset := spriteOffset, spriteLine := spriteLine
    oldState := f.state
    state := State.ReadSpriteID }

/-- One firing of the fetcher state machine: the `switch` body of
`Fetcher.Tick` (ppu/fetcher.go:65-116), executed on the tick where the
divided-tick accumulator reaches `ClockFactor`. -/
def Fetcher.step (vRAM : Nat → Nat) (f : Fetcher) : Fetcher :=
  match f.state with
  | State.ReadTileID =>
      { f with tileID := vRAM (f.mapAddr + f.tileOffset) % 256
               state := State.ReadTileData0 }
  | State.ReadTileData0 =>
      { f with tileData := ReadTileLine vRAM 0 f.dataAddr f.tileID f.signedID f.tileLine 0 f.tileData
               state := State.ReadTileData1 }
  | State.ReadTileData1 =>
      { f with tileData := ReadTileLine vRAM 1 f.dataAddr f.tileID f.signedID f.tileLine 0 f.tileData
               state := State.PushToFIFO }
  | State.PushToFIFO =>
      if FIFO.Size f.fifo ≤ 8 then
        { f with fifo := (List.range 8).foldl (fun q i => FIFO.Push q (f.tileData.getD i 0)) f.fifo
                 tileOffset := (f.tileOffset + 1) % 32
                 state := State.ReadTileID }
      else f
  | State.ReadSpriteID =>
      { f with spriteID := vRAM (f.sprite.Address + 2) % 256
               state := State.ReadSpriteFlags }
  | State.ReadSpriteFlags =>
      { f with spriteFlags := vRAM (f.sprite.Address + 3) % 256
               state := State.ReadSpriteData0 }
  | State.ReadSpriteData0 =>
      { f with spriteData := ReadTileLine vRAM 0 0x8000 f.spriteID false f.spriteLine f.spriteFlags f.spriteData
               state := State.ReadSpriteData1 }
  | State.ReadSpriteData1 =>
      { f with spriteData := ReadTileLine vRAM 1 0x8000 f.spriteID false f.spriteLine f.spriteFlags f.spriteData
               state := State.MixInFIFO }
  | State.MixInFIFO =>
      if FIFO.Size f.fifo < 8 then f
      else
        { f with fifo := (List.range 8).foldl (fun q i => FIFO.Mix q i (f.spriteData.getD i 0)) f.fifo
                 state := f.oldState }
  | _ => f

/-- `Fetcher.Tick` (ppu/fetcher.go:53-117): no-op while disabled; otherwise
increment the accumulator and, when it reaches `cf` (the `ClockFactor`
package variable), reset it and execute one state-machine step. -/
def Fetcher.Tick (cf : Nat) (vRAM : Nat → Nat) (f : Fetcher) : Fetcher :=
  if !f.Enabled then f
  else
    let f1 : Fetcher := { f with ticks := f.ticks + 1 }
    if f1.ticks < cf then f1
    else Fetcher.step vRAM { f1 with ticks := 0 }

/-- Iterated firings of the fetcher state machine: `n` qualifying divided
ticks in a row. -/
def Fetcher.steps (vRAM : Nat → Nat) : Nat → Fetcher → Fetcher
  | 0, f => f
  | n + 1, f => Fetcher.steps vRAM n (Fetcher.step vRAM f)

/-- Observable calls the scanline controller makes on the Output Sink
(`lcd.Display` collaborator).  Modelled from the spec: pixel-write, blank,
and line/frame markers. -/
inductive LCDEvent where
  | write (pixel : Nat)
  | blank
  | hblank
  | vblank
  deriving DecidableEq, Repr

/-- `LCDCDisplayEnable` (ppu/ppu.go:37): bit 7 of the display-control byte. -/
def LCDCDisplayEnable : Nat := 128

/-- `PPU` (ppu/ppu.go:44-64), restricted to the fields its `Tick` and `Pop`
touch; calls into the display sink are recorded on the `trace`. -/
structure PPU where
  LCDC : Nat := 0
  LY : Nat := 0
  Cycle : Nat := 0
  ticks : Nat := 0
  state : State := State.OAMSearch
  oamIndex : Nat := 0
  fifo : List Nat := []
  trace : List LCDEvent := []
  deriving DecidableEq, Repr

/-- The body of `PPU.Tick` after the accumulator fired (ppu/ppu.go:100-120):
the blank call when the display is disabled, then the state switch. -/
def PPU.step (p : PPU) : PPU :=
  let p1 : PPU :=
    if p.LCDC &&& LCDCDisplayEnable = 0 then
      { p with trace := p.trace ++ [LCDEvent.blank] }
    else p
  match p1.state with
  | State.OAMSearch =>
      let p2 : PPU := { p1 with oamIndex := p1.oamIndex + 1 }
      if 40 ≤ p2.oamIndex then { p2 with state := State.PixelTransfer } else p2
  | _ => p1

/-- `PPU.Tick` (ppu/ppu.go:90-121): advance `Cycle` and the accumulator on
every call; when the accumulator reaches `cf` (the `ClockFactor` package
variable), reset it and run the state switch. -/
def PPU.Tick (cf : Nat) (p : PPU) : PPU :=
  let p1 : PPU := { p with Cycle := p.Cycle + 1, ticks := p.ticks + 1 }
  if p1.ticks < cf then p1
  else PPU.step { p1 with ticks := 0 }

/-- `PPU.Pop` (ppu/ppu.go:129-135): shift one pixel out of the FIFO into the
LCD sink; return the number of shifted pixels (0 or 1). -/
def PPU.Pop (p : PPU) : PPU × Nat :=
  match FIFO.Pop p.fifo with
  | some (pixel, rest) =>
      ({ p with fifo := rest, trace := p.trace ++ [LCDEvent.write pixel] }, 1)
  | none => (p, 0)

/-- `PPU.Decode` (ppu/ppu.go:255-265): read the two plane bytes of a tile
row and return its 8 pixels left to right (bit 7 first), the high plane
supplying the high bit of each 2-bit color index. -/
def PPU.Decode (vRAM : Nat → Nat) (addr : Nat) : List Nat :=
  let lineLo := vRAM addr % 256
  let lineHi := vRAM (addr + 1) % 256
  (List.range 8).reverse.map
    (fun bit => ((((lineHi >>> bit) &&& 1) <<< 1) ||| ((lineLo >>> bit) &&& 1)))

/-- A memory collaborator holding the two plane bytes of one tile row at
addresses 0 and 1. -/
def planeBytes (lo hi : Nat) : Nat → Nat :=
  fun a => if a = 0 then lo else if a = 1 then hi else 0

/-- Both bit-plane passes of `Fetcher.ReadTileLine` over one tile row, as
`Fetcher.Tick` performs them in `ReadTileData0` then `ReadTileData1`. -/
def rowDecode (vRAM : Nat → Nat) (dataAddr tileID : Nat) (signedID : Bool)
    (tileLine flags : Nat) (data : List Nat) : List Nat :=
  ReadTileLine vRAM 1 dataAddr tileID signedID tileLine flags
    (ReadTileLine vRAM 0 dataAddr tileID signedID tileLine flags data)

/-- Modelled from the spec: the high bit of the per-channel control byte is
the restart trigger (`NRx4RestartSound` is defined in an apu source file not
provided). -/
def NRx4RestartSound : Nat := 0x80

/-- Bit 7 of NR30, the wave channel's sound on/off control ("Sound on/off -
bit 7", apu/wave.go:19; the named constant's defining file is not
provided). -/
def NR30SoundOn : Nat := 0x80

/-- `OutputShift` (apu/wave.go:9-14): right-shift amounts for the four
output-level codes. -/
def OutputShift : List Nat := [4, 0, 1, 2]

/-- `WaveTable` (apu/wave.go:18-32): the wave channel's registers, pattern
RAM (16 packed bytes) and internal phase. -/
structure WaveTable where
  NRx0 : Nat := 0
  NRx1 : Nat := 0
  NRx2 : Nat := 0
  NRx3 : Nat := 0
  NRx4 : Nat := 0
  Pattern : List Nat := List.replicate 16 0
  enabled : Bool := false
  sample : Nat := 0
  sampleOffset : Nat := 0
  ticks : Nat := 0
  deriving DecidableEq, Repr

/-- The 11-bit raw frequency field (apu/wave.go:68): low 3 bits of NRx4 and
all 8 bits of NRx3. -/
def rawFrequency (nrx4 nrx3 : Nat) : Nat := ((nrx4 &&& 7) <<< 8) ||| nrx3

/-- The effective wave frequency (apu/wave.go:69):
`freq = 65536 / (2048 - rawFreq)`. -/
def waveFrequency (nrx4 nrx3 : Nat) : Nat :=
  65536 / (2048 - rawFrequency nrx4 nrx3)

/-- The retrigger block of `WaveTable.Tick` (apu/wave.go:49-57): when the
restart bit is set, clear it, enable the channel and reset the tick
accumulator. -/
def WaveTable.restart (w : WaveTable) : WaveTable :=
  if w.NRx4 &&& NRx4RestartSound ≠ 0 then
    { w with NRx4 := w.NRx4 &&& (0xff ^^^ NRx4RestartSound)
             enabled := true
             ticks := 0 }
  else w

/-- One iteration of the sample-advance loop of `WaveTable.Tick`
(apu/wave.go:74-88); `threshold` is `GameBoyRate/(freq*32)`. -/
def WaveTable.loopStep (threshold : Nat) (w : WaveTable) : WaveTable :=
  let w1 : WaveTable := { w with ticks := w.ticks + 1 }
  if threshold ≤ w1.ticks then
    let sampleOffset := (w1.sampleOffset + 1) % 32
    let sampleByte := sampleOffset / 2
    let sampleShift := 4 - (sampleOffset % 2) * 4
    let s := (w1.Pattern.getD sampleByte 0 >>> sampleShift) &&& 0xf
    { w1 with
      sampleOffset := sampleOffset
      ticks := 0
      sample := s >>> OutputShift.getD ((w1.NRx2 &&& 0x60) >>> 5) 0 }
  else w1

/-- The `for i := 0; i < SoundOutRate; i++` loop of `WaveTable.Tick`,
iterated `n` times. -/
def WaveTable.loop (threshold : Nat) : Nat → WaveTable → WaveTable
  | 0, w => w
  | n + 1, w => WaveTable.loop threshold n (WaveTable.loopStep threshold w)

/-- `WaveTable.Tick` (apu/wave.go:46-91), parameterized by the package
constants `SoundOutRate` and `GameBoyRate` (their defining apu source file
is not provided; the spec describes them as the output rate and the master
rate).  Returns the produced sample (the Go named return, zero on the early
exits) together with the updated channel. -/
def WaveTable.Tick (soundOutRate gameBoyRate : Nat) (w : WaveTable) :
    Nat × WaveTable :=
  let w1 := WaveTable.restart w
  if !w1.enabled then (0, w1)
  else if w1.NRx0 &&& NR30SoundOn = 0 then (0, w1)
  else
    let freq := waveFrequency w1.NRx4 w1.NRx3
    let w2 := WaveTable.loop (gameBoyRate / (freq * 32)) soundOutRate w1
    (w2.sample, w2)

/-! Helper lemmas shared by several claims. -/

/-- ReadTileLine preserves the length of the pixel buffer (the Go buffer is a
fixed `[8]uint8` array). -/
theorem readTileLine_length (vRAM : Nat → Nat) (bp da ti : Nat) (s : Bool)
    (tl fl : Nat) (d : List Nat) :
    (ReadTileLine vRAM bp da ti s tl fl d).length = d.length := by
  simp [ReadTileLine, List.range_succ, List.length_set]

/-- The `MixInFIFO` loop overwrites the first 8 queue slots with the sprite
buffer and leaves the rest of the queue unchanged. -/
theorem mixFold (q sd : List Nat) (h : 8 ≤ q.length) (h2 : sd.length = 8) :
    (List.range 8).foldl (fun q i => FIFO.Mix q i (sd.getD i 0)) q = sd ++ q.drop 8 := by
  rcases sd with _ | ⟨s0, _ | ⟨s1, _ | ⟨s2, _ | ⟨s3, _ | ⟨s4, _ | ⟨s5, _ | ⟨s6, _ | ⟨s7, sd⟩⟩⟩⟩⟩⟩⟩⟩ <;>
    simp at h2
  rcases q with _ | ⟨q0, _ | ⟨q1, _ | ⟨q2, _ | ⟨q3, _ | ⟨q4, _ | ⟨q5, _ | ⟨q6, _ | ⟨q7, q⟩⟩⟩⟩⟩⟩⟩⟩ <;>
    simp at h
  simp [List.range_succ, FIFO.Mix, h2]

/-- C1: starting a fetch with any valid FetchContext, the four qualifying
divided ticks pass through ReadTileID, ReadTileData0, ReadTileData1 and
PushToFIFO and leave the Pixel Queue with exactly 8 more entries than before
the PushToFIFO step (the queue is empty there, so the size-at-most-8 proviso
holds); and whenever the machine is in PushToFIFO with queue size above 8, a
qualifying tick enqueues nothing and leaves it in PushToFIFO. -/
theorem c1_fetch_cadence (f : Fetcher) (vRAM : Nat → Nat)
    (mapAddr dataAddr tileOffset tileLine : Nat) (sID : Bool) :
    (Fetcher.steps vRAM 1 (Fetcher.Start f mapAddr dataAddr tileOffset tileLine sID)).state
        = State.ReadTileData0
    ∧ (Fetcher.steps vRAM 2 (Fetcher.Start f mapAddr dataAddr tileOffset tileLine sID)).state
        = State.ReadTileData1
    ∧ (Fetcher.steps vRAM 3 (Fetcher.Start f mapAddr dataAddr tileOffset tileLine sID)).state
        = State.PushToFIFO
    ∧ (Fetcher.steps vRAM 4 (Fetcher.Start f mapAddr dataAddr tileOffset tileLine sID)).state
        = State.ReadTileID
    ∧ FIFO.Size (Fetcher.steps vRAM 3 (Fetcher.Start f mapAddr dataAddr tileOffset tileLine sID)).fifo
        = 0
    ∧ FIFO.Size (Fetcher.steps vRAM 4 (Fetcher.Start f mapAddr dataAddr tileOffset tileLine sID)).fifo
        = FIFO.Size (Fetcher.steps vRAM 3 (Fetcher.Start f mapAddr dataAddr tileOffset tileLine sID)).fifo
          + 8
    ∧ (∀ g : Fetcher, g.state = State.PushToFIFO → 8 < FIFO.Size g.fifo →
        (Fetcher.step vRAM g).state = State.PushToFIFO ∧ (Fetcher.step vRAM g).fifo = g.fifo) := by
  refine ⟨?_, ?_, ?_, ?_, ?_, ?_, fun g hg hsize => ?_⟩
  · simp [Fetcher.steps, Fetcher.step, Fetcher.Start, FIFO.Size, FIFO.Push, FIFO.Clear, List.range_succ]
  · simp [Fetcher.steps, Fetcher.step, Fetcher.Start, FIFO.Size, FIFO.Push, FIFO.Clear, List.range_succ]
  · simp [Fetcher.steps, Fetcher.step, Fetcher.Start, FIFO.Size, FIFO.Push, FIFO.Clear, List.range_succ]
  · simp [Fetcher.steps, Fetcher.step, Fetcher.Start, FIFO.Size, FIFO.Push, FIFO.Clear, List.range_succ]
  · simp [Fetcher.steps, Fetcher.step, Fetcher.Start, FIFO.Size, FIFO.Push, FIFO.Clear, List.range_succ]
  · simp [Fetcher.steps, Fetcher.step, Fetcher.Start, FIFO.Size, FIFO.Push, FIFO.Clear, List.range_succ]
  · have h3 : ¬ (FIFO.Size g.fifo ≤ 8) := Nat.not_le.mpr hsize
    simp [Fetcher.step, hg, h3]

/-- A fetcher stalled in PushToFIFO with an over-full queue. -/
def stalledFetcher : Fetcher :=
  { state := State.PushToFIFO, fifo := List.replicate 9 0 }

/-- C1 witness: the stall clause of `c1_fetch_cadence` evaluated on a
concrete over-full fetcher. -/
theorem c1_fetch_cadence_witness :
    (Fetcher.step (fun _ => 0) stalledFetcher).state = State.PushToFIFO
    ∧ (Fetcher.step (fun _ => 0) stalledFetcher).fifo = stalledFetcher.fifo :=
  (c1_fetch_cadence {} (fun _ => 0) 0 0 0 0 false).2.2.2.2.2.2 stalledFetcher rfl (by decide)

/-- C2 counterexample: with plane bytes lo = 0b10110000 and hi = 0b11000000
and no flip, neither `PPU.Decode` nor the fetcher's two-plane decode yields
the row `[3,2,2,1,0,0,0,0]` stated by the claim (bit 5 of the high plane is
0, so pixel 2 is 1, not 2). -/
theorem c2_decode_counterexample :
    PPU.Decode (planeBytes 0xB0 0xC0) 0 ≠ [3, 2, 2, 1, 0, 0, 0, 0]
    ∧ rowDecode (planeBytes 0xB0 0xC0) 0 0 false 0 0 (List.replicate 8 0)
        ≠ [3, 2, 2, 1, 0, 0, 0, 0] := by
  decide

/-- C2 (amended): with plane bytes lo = 0b10110000 and hi = 0b11000000 and
no flip, both `PPU.Decode` and the fetcher's two-plane decode yield
`[3,2,1,1,0,0,0,0]`, and pixel column i is formed from bit (7-i) of the high
plane (high bit) and bit (7-i) of the low plane (low bit). -/
theorem c2_decode_amended :
    PPU.Decode (planeBytes 0xB0 0xC0) 0 = [3, 2, 1, 1, 0, 0, 0, 0]
    ∧ rowDecode (planeBytes 0xB0 0xC0) 0 0 false 0 0 (List.replicate 8 0)
        = [3, 2, 1, 1, 0, 0, 0, 0]
    ∧ PPU.Decode (planeBytes 0xB0 0xC0) 0
        = (List.range 8).map
            (fun i => (((0xC0 >>> (7 - i)) &&& 1) <<< 1) ||| ((0xB0 >>> (7 - i)) &&& 1)) := by
  decide

/-- C3 counterexample: decoding lo = 0b10110000, hi = 0b11000000 with the
horizontal-flip flag set does not give `[0,0,0,0,1,2,2,3]` (the unflipped
row is `[3,2,1,1,0,0,0,0]`, so its reverse is `[0,0,0,0,1,1,2,3]`). -/
theorem c3_flip_counterexample :
    rowDecode (planeBytes 0xB0 0xC0) 0 0 false 0 SpriteFlipX (List.replicate 8 0)
      ≠ [0, 0, 0, 0, 1, 2, 2, 3] := by
  decide

/-- C3 (amended): decoding a tile row with the horizontal-flip flag set
produces exactly the reverse of the row decoded from the same two plane
bytes without the flip flag; in particular for lo = 0b10110000 and
hi = 0b11000000 the flipped row is `[0,0,0,0,1,1,2,3]`. -/
theorem c3_flip_reverses_row :
    (∀ (vRAM : Nat → Nat) (dataAddr tileID : Nat) (sID : Bool) (tileLine : Nat)
        (d0 d1 d2 d3 d4 d5 d6 d7 : Nat),
      rowDecode vRAM dataAddr tileID sID tileLine SpriteFlipX [d0, d1, d2, d3, d4, d5, d6, d7]
        = (rowDecode vRAM dataAddr tileID sID tileLine 0 [d0, d1, d2, d3, d4, d5, d6, d7]).reverse)
    ∧ rowDecode (planeBytes 0xB0 0xC0) 0 0 false 0 SpriteFlipX (List.replicate 8 0)
        = [0, 0, 0, 0, 1, 1, 2, 3] := by
  refine ⟨fun vRAM dataAddr tileID sID tileLine d0 d1 d2 d3 d4 d5 d6 d7 => ?_, by decide⟩
  simp [rowDecode, ReadTileLine, SpriteFlipX, SpriteFlipY, List.range_succ,
    (by decide : (32 : Nat) &&& 64 = 0)]

/-- Step equation: the ReadSpriteID firing. -/
theorem step_eq_readSpriteID (vRAM : Nat → Nat) (f : Fetcher) (h : f.state = State.ReadSpriteID) :
    Fetcher.step vRAM f
      = { f with spriteID := vRAM (f.sprite.Address + 2) % 256, state := State.ReadSpriteFlags } := by
  simp [Fetcher.step, h]

/-- Step equation: the ReadSpriteFlags firing. -/
theorem step_eq_readSpriteFlags (vRAM : Nat → Nat) (f : Fetcher) (h : f.state = State.ReadSpriteFlags) :
    Fetcher.step vRAM f
      = { f with spriteFlags := vRAM (f.sprite.Address + 3) % 256, state := State.ReadSpriteData0 } := by
  simp [Fetcher.step, h]

/-- Step equation: the ReadSpriteData0 firing. -/
theorem step_eq_readSpriteData0 (vRAM : Nat → Nat) (f : Fetcher) (h : f.state = State.ReadSpriteData0) :
    Fetcher.step vRAM f
      = { f with spriteData := ReadTileLine vRAM 0 0x8000 f.spriteID false f.spriteLine f.spriteFlags f.spriteData
                 state := State.ReadSpriteData1 } := by
  simp [Fetcher.step, h]

/-- Step equation: the ReadSpriteData1 firing. -/
theorem step_eq_readSpriteData1 (vRAM : Nat → Nat) (f : Fetcher) (h : f.state = State.ReadSpriteData1) :
    Fetcher.step vRAM f
      = { f with spriteData := ReadTileLine vRAM 1 0x8000 f.spriteID false f.spriteLine f.spriteFlags f.spriteData
                 state := State.MixInFIFO } := by
  simp [Fetcher.step, h]

/-- Step equation: the MixInFIFO firing when the queue holds at least 8
pixels. -/
theorem step_eq_mixInFIFO (vRAM : Nat → Nat) (f : Fetcher) (h : f.state = State.MixInFIFO)
    (h2 : 8 ≤ FIFO.Size f.fifo) :
    Fetcher.step vRAM f
      = { f with fifo := (List.range 8).foldl (fun q i => FIFO.Mix q i (f.spriteData.getD i 0)) f.fifo
                 state := f.oldState } := by
  simp [Fetcher.step, h, Nat.not_lt.mpr h2]

/-- C5: calling FetchSprite in state ReadTileData1 and ticking through the
complete sprite path (ReadSpriteID, ReadSpriteFlags, ReadSpriteData0,
ReadSpriteData1, MixInFIFO — the last firing requires at least 8 queued
pixels) returns the machine to exactly ReadTileData1; the queue keeps its
length, its slots beyond the first 8 are untouched, and its first 8 slots
hold the mixed-in sprite row. -/
theorem c5_sprite_resume (f : Fetcher) (vRAM : Nat → Nat) (s : Sprite) (so sl : Nat)
    (h1 : f.state = State.ReadTileData1) (h2 : 8 ≤ FIFO.Size f.fifo)
    (h3 : f.spriteData.length = 8) :
    (Fetcher.steps vRAM 5 (Fetcher.FetchSprite f s so sl)).state = State.ReadTileData1
    ∧ FIFO.Size (Fetcher.steps vRAM 5 (Fetcher.FetchSprite f s so sl)).fifo = FIFO.Size f.fifo
    ∧ (Fetcher.steps vRAM 5 (Fetcher.FetchSprite f s so sl)).fifo.drop 8 = f.fifo.drop 8
    ∧ (Fetcher.steps vRAM 5 (Fetcher.FetchSprite f s so sl)).fifo.take 8
        = (Fetcher.steps vRAM 5 (Fetcher.FetchSprite f s so sl)).spriteData := by
  have e5 : Fetcher.steps vRAM 5 (Fetcher.FetchSprite f s so sl)
      = Fetcher.step vRAM (Fetcher.step vRAM (Fetcher.step vRAM (Fetcher.step vRAM
          (Fetcher.step vRAM (Fetcher.FetchSprite f s so sl))))) := rfl
  have hq : 8 ≤ f.fifo.length := h2
  have hsd : (ReadTileLine vRAM 1 0x8000 (vRAM (s.Address + 2) % 256) false sl
      (vRAM (s.Address + 3) % 256)
      (ReadTileLine vRAM 0 0x8000 (vRAM (s.Address + 2) % 256) false sl
        (vRAM (s.Address + 3) % 256) f.spriteData)).length = 8 := by
    rw [readTileLine_length, readTileLine_length, h3]
  rw [e5]
  simp only [step_eq_readSpriteID, step_eq_readSpriteFlags, step_eq_readSpriteData0,
    step_eq_readSpriteData1, step_eq_mixInFIFO, Fetcher.FetchSprite, h2]
  rw [mixFold _ _ hq hsd]
  refine ⟨h1, ?_, List.drop_left' hsd, List.take_left' hsd⟩
  simp only [FIFO.Size, List.length_append, List.length_drop, hsd]
  omega

/-- A fetcher paused in ReadTileData1 with a full 8-pixel row queued, used to
evaluate `c5_sprite_resume` concretely. -/
def pausedFetcher : Fetcher :=
  { state := State.ReadTileData1, fifo := List.replicate 8 2 }

/-- C5 witness: `c5_sprite_resume` evaluated on a concrete paused fetcher. -/
theorem c5_sprite_resume_witness :
    (Fetcher.steps (fun _ => 0) 5 (Fetcher.FetchSprite pausedFetcher {} 0 0)).state
        = State.ReadTileData1
    ∧ FIFO.Size (Fetcher.steps (fun _ => 0) 5 (Fetcher.FetchSprite pausedFetcher {} 0 0)).fifo
        = FIFO.Size pausedFetcher.fifo
    ∧ (Fetcher.steps (fun _ => 0) 5 (Fetcher.FetchSprite pausedFetcher {} 0 0)).fifo.drop 8
        = pausedFetcher.fifo.drop 8
    ∧ (Fetcher.steps (fun _ => 0) 5 (Fetcher.FetchSprite pausedFetcher {} 0 0)).fifo.take 8
        = (Fetcher.steps (fun _ => 0) 5 (Fetcher.FetchSprite pausedFetcher {} 0 0)).spriteData :=
  c5_sprite_resume pausedFetcher (fun _ => 0) {} 0 0 rfl (by decide) (by decide)

/-- One sample-loop iteration never touches the channel registers or the
enable flag. -/
theorem waveLoopStep_regs (th : Nat) (w : WaveTable) :
    (WaveTable.loopStep th w).NRx4 = w.NRx4
    ∧ (WaveTable.loopStep th w).enabled = w.enabled := by
  simp only [WaveTable.loopStep]
  split <;> simp

/-- The whole sample loop never touches the channel registers or the enable
flag. -/
theorem waveLoop_regs (th n : Nat) (w : WaveTable) :
    (WaveTable.loop th n w).NRx4 = w.NRx4
    ∧ (WaveTable.loop th n w).enabled = w.enabled := by
  induction n generalizing w with
  | zero => simp [WaveTable.loop]
  | succ n ih =>
      have h := waveLoopStep_regs th w
      have h2 := ih (WaveTable.loopStep th w)
      simp only [WaveTable.loop]
      exact ⟨h2.1.trans h.1, h2.2.trans h.2⟩

/-- C4 counterexample: a Tick call with the restart bit set does not reset
the sample index: with prior sample index 5 (and the NRx0 on/off bit clear,
so the generation loop does not run) the post-call sample index is still 5,
not 0 as the claim requires. -/
theorem c4_restart_counterexample :
    (WaveTable.Tick 1 4194304
      { NRx4 := 128, NRx0 := 0, sampleOffset := 5, ticks := 3 }).2.sampleOffset ≠ 0 := by
  decide

/-- C4 (amended): on any Tick call with the restart bit of NRx4 set, the
restart bit is cleared and the channel is marked enabled; the restart
handling resets the sub-tick accumulator to 0 but leaves the sample index
unchanged (so the waveform resumes from its current sample, not its first);
in particular when the NRx0 on/off bit is clear the call returns with
accumulator 0 and sample index unchanged. -/
theorem c4_wave_restart (w : WaveTable) (sor gbr : Nat)
    (h : w.NRx4 &&& NRx4RestartSound ≠ 0) :
    (WaveTable.Tick sor gbr w).2.NRx4 &&& NRx4RestartSound = 0
    ∧ (WaveTable.Tick sor gbr w).2.enabled = true
    ∧ (WaveTable.restart w).ticks = 0
    ∧ (WaveTable.restart w).sampleOffset = w.sampleOffset
    ∧ (w.NRx0 &&& NR30SoundOn = 0 →
        (WaveTable.Tick sor gbr w).2.ticks = 0
        ∧ (WaveTable.Tick sor gbr w).2.sampleOffset = w.sampleOffset) := by
  have hr : WaveTable.restart w
      = { w with NRx4 := w.NRx4 &&& (0xff ^^^ NRx4RestartSound), enabled := true, ticks := 0 } := by
    simp [WaveTable.restart, h]
  have hbit : (w.NRx4 &&& (0xff ^^^ NRx4RestartSound)) &&& NRx4RestartSound = 0 := by
    rw [Nat.land_assoc, (by decide : (0xff ^^^ NRx4RestartSound) &&& NRx4RestartSound = 0)]
    simp
  by_cases h0 : w.NRx0 &&& NR30SoundOn = 0
  · simp [WaveTable.Tick, hr, h0, hbit]
  · have hl := waveLoop_regs
      (gbr / (waveFrequency (w.NRx4 &&& (0xff ^^^ NRx4RestartSound)) w.NRx3 * 32)) sor
      { w with NRx4 := w.NRx4 &&& (0xff ^^^ NRx4RestartSound), enabled := true, ticks := 0 }
    simp [WaveTable.Tick, hr, h0, hbit, hl.1, hl.2]

/-- C4 witness: `c4_wave_restart` evaluated on a concrete retriggered
channel. -/
theorem c4_wave_restart_witness :
    (WaveTable.Tick 1 4194304
        { NRx4 := 128, NRx0 := 0, sampleOffset := 5, ticks := 3 }).2.enabled = true
    ∧ ((WaveTable.Tick 1 4194304
        { NRx4 := 128, NRx0 := 0, sampleOffset := 5, ticks := 3 }).2.ticks = 0
      ∧ (WaveTable.Tick 1 4194304
        { NRx4 := 128, NRx0 := 0, sampleOffset := 5, ticks := 3 }).2.sampleOffset
          = ({ NRx4 := 128, NRx0 := 0, sampleOffset := 5, ticks := 3 } : WaveTable).sampleOffset) :=
  ⟨(c4_wave_restart { NRx4 := 128, NRx0 := 0, sampleOffset := 5, ticks := 3 } 1 4194304
      (by decide)).2.1,
   (c4_wave_restart { NRx4 := 128, NRx0 := 0, sampleOffset := 5, ticks := 3 } 1 4194304
      (by decide)).2.2.2.2 (by decide)⟩

/-- C6 counterexample: with the on/off bit clear but the restart bit set on
the same call, Tick returns silence yet mutates the phase: the sub-tick
accumulator is forced from 3 to 0. -/
theorem c6_silence_counterexample :
    (WaveTable.Tick 1 4194304 { NRx0 := 0, NRx4 := 128, ticks := 3 }).1 = 0
    ∧ (WaveTable.Tick 1 4194304 { NRx0 := 0, NRx4 := 128, ticks := 3 }).2.ticks ≠ 3 := by
  decide

/-- C6 (amended): if the restart bit is clear and the channel is disabled or
its NRx0 on/off bit is clear, Tick returns silence and mutates nothing at
all; if instead the restart bit is set while the NRx0 on/off bit is clear,
Tick still returns silence and leaves the sample index and current sample
unchanged, but the restart handling clears the restart bit, enables the
channel and zeroes the sub-tick accumulator. -/
theorem c6_wave_silence (w : WaveTable) (sor gbr : Nat) :
    (w.NRx4 &&& NRx4RestartSound = 0 → (w.enabled = false ∨ w.NRx0 &&& NR30SoundOn = 0) →
      WaveTable.Tick sor gbr w = (0, w))
    ∧ (w.NRx4 &&& NRx4RestartSound ≠ 0 → w.NRx0 &&& NR30SoundOn = 0 →
        (WaveTable.Tick sor gbr w).1 = 0
        ∧ (WaveTable.Tick sor gbr w).2.sampleOffset = w.sampleOffset
        ∧ (WaveTable.Tick sor gbr w).2.sample = w.sample
        ∧ (WaveTable.Tick sor gbr w).2.ticks = 0
        ∧ (WaveTable.Tick sor gbr w).2.enabled = true) := by
  constructor
  · intro h hoff
    have hr : WaveTable.restart w = w := by
      simp [WaveTable.restart, h]
    rcases hoff with he | h0
    · simp [WaveTable.Tick, hr, he]
    · by_cases he : w.enabled
      · simp [WaveTable.Tick, hr, he, h0]
      · simp [WaveTable.Tick, hr, he]
  · intro h h0
    have hr : WaveTable.restart w
        = { w with NRx4 := w.NRx4 &&& (0xff ^^^ NRx4RestartSound), enabled := true, ticks := 0 } := by
      simp [WaveTable.restart, h]
    simp [WaveTable.Tick, hr, h0]

/-- C6 witness: both branches of `c6_wave_silence` evaluated concretely: a
dormant channel is returned unchanged, and a retriggered channel with the
on/off bit clear keeps its sample index. -/
theorem c6_wave_silence_witness :
    WaveTable.Tick 1 4194304 { sampleOffset := 7 } = (0, { sampleOffset := 7 })
    ∧ (WaveTable.Tick 1 4194304 { NRx4 := 128, sampleOffset := 7 }).2.sampleOffset
        = ({ NRx4 := 128, sampleOffset := 7 } : WaveTable).sampleOffset :=
  ⟨(c6_wave_silence { sampleOffset := 7 } 1 4194304).1 (by decide) (Or.inl rfl),
   ((c6_wave_silence { NRx4 := 128, sampleOffset := 7 } 1 4194304).2 (by decide) (by decide)).2.1⟩

/-- C9: the 11-bit raw frequency field assembled from the low 3 bits of NRx4
and all 8 bits of NRx3 is at most 2047 for every register contents, so the
divisor 2048 - rawFrequency is at least 1 and neither the frequency division
nor the subsequent division by frequency*32 divides by zero. -/
theorem c9_frequency_safe (nrx4 nrx3 : Nat) (h : nrx3 < 256) :
    rawFrequency nrx4 nrx3 ≤ 2047
    ∧ 2048 - rawFrequency nrx4 nrx3 ≠ 0
    ∧ 1 ≤ 2048 - rawFrequency nrx4 nrx3
    ∧ waveFrequency nrx4 nrx3 * 32 ≠ 0 := by
  have hand : nrx4 &&& 7 ≤ 7 := Nat.and_le_right
  have hsh : (nrx4 &&& 7) <<< 8 < 2 ^ 11 := by
    rw [Nat.shiftLeft_eq]
    norm_num
    omega
  have hn3 : nrx3 < 2 ^ 11 := by omega
  have hraw : rawFrequency nrx4 nrx3 < 2048 := by
    have := Nat.or_lt_two_pow hsh hn3
    simpa [rawFrequency] using this
  have hfreq : 0 < waveFrequency nrx4 nrx3 := by
    apply Nat.div_pos _ (by omega)
    omega
  exact ⟨by omega, by omega, by omega, by positivity⟩

/-- C9 witness: `c9_frequency_safe` at the all-ones register contents. -/
theorem c9_frequency_safe_witness :
    rawFrequency 255 255 ≤ 2047
    ∧ 2048 - rawFrequency 255 255 ≠ 0
    ∧ 1 ≤ 2048 - rawFrequency 255 255
    ∧ waveFrequency 255 255 * 32 ≠ 0 :=
  c9_frequency_safe 255 255 (by decide)

/-- Field accounting for one firing of the scanline controller: the state
switch only advances the OAM counter and state, records the blank call when
the display is disabled, and leaves every timing counter alone. -/
theorem ppu_step_fields (p : PPU) :
    (PPU.step p).Cycle = p.Cycle
    ∧ (PPU.step p).ticks = p.ticks
    ∧ (PPU.step p).LY = p.LY
    ∧ (PPU.step p).fifo = p.fifo
    ∧ ((PPU.step p).state, (PPU.step p).oamIndex)
        = (if p.state = State.OAMSearch then
             ((if 40 ≤ p.oamIndex + 1 then State.PixelTransfer else State.OAMSearch),
              p.oamIndex + 1)
           else (p.state, p.oamIndex))
    ∧ (PPU.step p).trace
        = (if p.LCDC &&& LCDCDisplayEnable = 0 then p.trace ++ [LCDEvent.blank] else p.trace) := by
  by_cases hd : p.LCDC &&& LCDCDisplayEnable = 0 <;>
    cases hp : p.state <;>
      simp [PPU.step, hd, hp] <;> split <;> simp

/-- A scanline controller with the display disabled, one pixel queued, in
the Transfer phase. -/
def disabledPPU : PPU := { LCDC := 0, state := State.PixelTransfer, fifo := [2] }

/-- C7 counterexample: with the display-enable bit cleared, a pixel-producing
Pop during Transfer still sends the fetched pixel value 2 to the sink — not
the blank value the claim requires. -/
theorem c7_blank_counterexample :
    disabledPPU.LCDC &&& LCDCDisplayEnable = 0
    ∧ (PPU.Pop disabledPPU).1.trace = [LCDEvent.write 2]
    ∧ LCDEvent.write 2 ≠ LCDEvent.blank := by
  decide

/-- C7 (amended): with the display-enable bit cleared, every qualifying
divided tick invokes the sink's Blank hook, and the timing counters (Cycle,
tick accumulator, state, OAM index, LY) advance exactly as they would with
any other display-control value; but pixel-producing Pop steps are not
affected by the bit and still deliver the fetched pixel value to the sink. -/
theorem c7_display_disabled (p : PPU) (cf : Nat) (b : Nat) :
    ((PPU.Tick cf { p with LCDC := b }).Cycle = (PPU.Tick cf p).Cycle
      ∧ (PPU.Tick cf { p with LCDC := b }).ticks = (PPU.Tick cf p).ticks
      ∧ (PPU.Tick cf { p with LCDC := b }).state = (PPU.Tick cf p).state
      ∧ (PPU.Tick cf { p with LCDC := b }).oamIndex = (PPU.Tick cf p).oamIndex
      ∧ (PPU.Tick cf { p with LCDC := b }).LY = (PPU.Tick cf p).LY)
    ∧ (p.LCDC &&& LCDCDisplayEnable = 0 → ¬ p.ticks + 1 < cf →
        (PPU.Tick cf p).trace = p.trace ++ [LCDEvent.blank])
    ∧ (∀ px rest, p.fifo = px :: rest →
        PPU.Pop p = ({ p with fifo := rest, trace := p.trace ++ [LCDEvent.write px] }, 1)) := by
  refine ⟨?_, ?_, ?_⟩
  · by_cases ht : p.ticks + 1 < cf
    · simp [PPU.Tick, ht]
    · obtain ⟨a1, a2, a3, a4, a5, a6⟩ :=
        ppu_step_fields { p with LCDC := b, Cycle := p.Cycle + 1, ticks := 0 }
      obtain ⟨b1, b2, b3, b4, b5, b6⟩ :=
        ppu_step_fields { p with Cycle := p.Cycle + 1, ticks := 0 }
      simp only at a1 a2 a3 a5 b1 b2 b3 b5
      have e5 := a5.trans b5.symm
      simp [PPU.Tick, ht]
      exact ⟨a1.trans b1.symm, a2.trans b2.symm, congrArg Prod.fst e5,
        congrArg Prod.snd e5, a3.trans b3.symm⟩
  · intro hd ht
    obtain ⟨a1, a2, a3, a4, a5, a6⟩ := ppu_step_fields { p with Cycle := p.Cycle + 1, ticks := 0 }
    simp only at a6
    simp [PPU.Tick, ht, a6, hd]
  · intro px rest h
    simp [PPU.Pop, FIFO.Pop, h]

/-- C7 witness: `c7_display_disabled` evaluated concretely — a qualifying
disabled tick records the blank call, and a Pop on the disabled controller
delivers the fetched pixel. -/
theorem c7_display_disabled_witness :
    (PPU.Tick 1 disabledPPU).trace = disabledPPU.trace ++ [LCDEvent.blank]
    ∧ PPU.Pop disabledPPU
        = ({ disabledPPU with fifo := [], trace := disabledPPU.trace ++ [LCDEvent.write 2] }, 1) :=
  ⟨(c7_display_disabled disabledPPU 1 0).2.1 (by decide) (by decide),
   (c7_display_disabled disabledPPU 1 0).2.2 2 [] rfl⟩

/-- A firing of the fetcher state machine never changes its divided-tick
accumulator. -/
theorem fetcher_step_ticks (vRAM : Nat → Nat) (f : Fetcher) :
    (Fetcher.step vRAM f).ticks = f.ticks := by
  cases hp : f.state <;> simp only [Fetcher.step, hp] <;> first | rfl | (split <;> rfl)

/-- C8: for both stateful components — the fetcher and the scanline
controller — the divided-tick accumulator stays in [0, ClockFactor) across
Tick calls when ClockFactor is at least 1; a Tick below the divisor merely
increments the accumulator (for the fetcher: when enabled), and the Tick
that reaches the divisor resets the accumulator to zero and fires exactly
one state-machine step. -/
theorem c8_accumulator_invariant (cf : Nat) (vRAM : Nat → Nat) (f : Fetcher) (p : PPU)
    (hcf : 1 ≤ cf) (hf : f.ticks < cf) (hp : p.ticks < cf) :
    (Fetcher.Tick cf vRAM f).ticks < cf
    ∧ (PPU.Tick cf p).ticks < cf
    ∧ (f.Enabled = true → f.ticks + 1 < cf →
        Fetcher.Tick cf vRAM f = { f with ticks := f.ticks + 1 })
    ∧ (f.Enabled = true → ¬ f.ticks + 1 < cf →
        Fetcher.Tick cf vRAM f = Fetcher.step vRAM { f with ticks := 0 })
    ∧ (p.ticks + 1 < cf → PPU.Tick cf p = { p with Cycle := p.Cycle + 1, ticks := p.ticks + 1 })
    ∧ (¬ p.ticks + 1 < cf → PPU.Tick cf p = PPU.step { p with Cycle := p.Cycle + 1, ticks := 0 }) := by
  refine ⟨?_, ?_, ?_, ?_, ?_, ?_⟩
  · cases he : f.Enabled
    · simp [Fetcher.Tick, he, hf]
    · by_cases ht : f.ticks + 1 < cf
      · simp [Fetcher.Tick, he, ht]
      · simp [Fetcher.Tick, he, ht, fetcher_step_ticks]
        omega
  · by_cases ht : p.ticks + 1 < cf
    · simp [PPU.Tick, ht]
    · have h6 := (ppu_step_fields { p with Cycle := p.Cycle + 1, ticks := 0 }).2.1
      simp only at h6
      simp [PPU.Tick, ht, h6]
      omega
  · intro he ht
    simp [Fetcher.Tick, he, ht]
  · intro he ht
    simp [Fetcher.Tick, he, ht]
  · intro ht
    simp [PPU.Tick, ht]
  · intro ht
    simp [PPU.Tick, ht]

/-- C8 witness: `c8_accumulator_invariant` at the source's default
ClockFactor of 2 on a freshly enabled fetcher and a fresh controller: both
accumulators stay below 2, and the first Tick is a pure increment. -/
theorem c8_accumulator_invariant_witness :
    (Fetcher.Tick ClockFactor (fun _ => 0) { Enabled := true }).ticks < ClockFactor
    ∧ (PPU.Tick ClockFactor {}).ticks < ClockFactor
    ∧ Fetcher.Tick ClockFactor (fun _ => 0) { Enabled := true }
        = { ({ Enabled := true } : Fetcher) with
            ticks := ({ Enabled := true } : Fetcher).ticks + 1 } :=
  ⟨(c8_accumulator_invariant ClockFactor (fun _ => 0) { Enabled := true } {}
      (by decide) (by decide) (by decide)).1,
   (c8_accumulator_invariant ClockFactor (fun _ => 0) { Enabled := true } {}
      (by decide) (by decide) (by decide)).2.1,
   (c8_accumulator_invariant ClockFactor (fun _ => 0) { Enabled := true } {}
      (by decide) (by decide) (by decide)).2.2.1 rfl (by decide)⟩

/-- Bound propagation through the bit-extraction fold: if every entry of the
base buffer satisfies P and each step preserves P, the folded buffer does. -/
theorem foldr_set_bound {α : Type} (P : Nat → Prop) (bs : List α) (g : α → List Nat → List Nat)
    (hstep : ∀ b d, (∀ x ∈ d, P x) → ∀ x ∈ g b d, P x) (d : List Nat) (hd : ∀ x ∈ d, P x) :
    ∀ x ∈ bs.foldr g d, P x := by
  induction bs with
  | nil => exact hd
  | cons b bs ih => exact hstep b _ ih

/-- getD inherits an elementwise bound, falling back to the bound on the
default value. -/
theorem getD_bound {l : List Nat} {P : Nat → Prop} (h : ∀ x ∈ l, P x) (h0 : P 0) (i : Nat) :
    P (l.getD i 0) := by
  rw [List.getD_eq_getElem?_getD]
  cases hl : l[i]? with
  | none => simpa using h0
  | some v =>
      obtain ⟨hlt, hv⟩ := List.getElem?_eq_some_iff.mp hl
      have hm : v ∈ l := hv ▸ List.getElem_mem hlt
      simpa using h v hm

/-- Every entry written by a bit-plane-1 pass is the OR of a previous entry
with a shifted single bit, hence at most 3 when the buffer held values at
most 1. -/
theorem plane1_bound (pd fl : Nat) (e : List Nat) (he : ∀ x ∈ e, x ≤ 1) :
    ∀ x ∈ (List.range 8).foldr
      (fun bitPos d =>
        let pixelIndex := if fl &&& SpriteFlipX ≠ 0 then bitPos else 7 - bitPos
        d.set pixelIndex
          (if (1 : Nat) = 0 then (pd >>> bitPos) &&& 1
           else (d.getD pixelIndex 0) ||| (((pd >>> bitPos) &&& 1) <<< 1))) e, x ≤ 3 := by
  refine foldr_set_bound (fun x => x ≤ 3) _ _ ?_ e (fun y hy => le_trans (he y hy) (by norm_num))
  intro b d hd y hy
  simp only [if_neg (by decide : ¬ (1 : Nat) = 0)] at hy
  rcases List.mem_or_eq_of_mem_set hy with h | h
  · exact hd _ h
  · have h1 : d.getD (if fl &&& SpriteFlipX ≠ 0 then b else 7 - b) 0 ≤ 3 :=
      getD_bound hd (by norm_num) _
    have h2 : ((pd >>> b) &&& 1) <<< 1 ≤ 2 := by
      have h3 : (pd >>> b) &&& 1 ≤ 1 := Nat.and_le_right
      rw [Nat.shiftLeft_eq]
      omega
    have h4 := Nat.or_lt_two_pow (n := 2)
      (x := d.getD (if fl &&& SpriteFlipX ≠ 0 then b else 7 - b) 0)
      (y := ((pd >>> b) &&& 1) <<< 1) (by omega) (by omega)
    omega

/-- C10: every pixel the fetcher deposits into the Pixel Queue is a 2-bit
color index: a plane-0 pass leaves every buffer entry in {0,1} whatever
stale values it held, a plane-1 pass over a buffer of entries at most 1
leaves every entry at most 3, and the PushToFIFO firing enqueues exactly the
8 entries of that buffer. -/
theorem c10_pixel_range (vRAM : Nat → Nat) (da ti : Nat) (sID : Bool) (tl fl : Nat)
    (d0 d1 d2 d3 d4 d5 d6 d7 : Nat) :
    (∀ x ∈ ReadTileLine vRAM 0 da ti sID tl fl [d0, d1, d2, d3, d4, d5, d6, d7], x ≤ 1)
    ∧ (∀ e : List Nat, (∀ x ∈ e, x ≤ 1) →
        ∀ x ∈ ReadTileLine vRAM 1 da ti sID tl fl e, x ≤ 3)
    ∧ (∀ g : Fetcher, g.state = State.PushToFIFO → FIFO.Size g.fifo ≤ 8 →
        (Fetcher.step vRAM g).fifo
          = g.fifo ++ (List.range 8).map (fun i => g.tileData.getD i 0)) := by
  refine ⟨?_, ?_, ?_⟩
  · by_cases hx : fl &&& SpriteFlipX ≠ 0 <;>
      · intro x hmem
        simp [ReadTileLine, List.range_succ, hx] at hmem
        rcases hmem with h | h | h | h | h | h | h | h <;> omega
  · intro e he x hx
    exact plane1_bound _ fl e he x hx
  · intro g hg hle
    simp [Fetcher.step, hg, hle, FIFO.Push, List.range_succ]

/-- A fetcher about to push its tile row. -/
def pushFetcher : Fetcher := { state := State.PushToFIFO }

/-- C10 witness: `c10_pixel_range` evaluated concretely — with both plane
bytes 255, plane 0 leaves entry 1 in range, plane 1 on an all-ones buffer
yields entries of 3, and the concrete PushToFIFO firing appends its 8 buffer
entries. -/
theorem c10_pixel_range_witness :
    (1 : Nat) ≤ 1
    ∧ (3 : Nat) ≤ 3
    ∧ (Fetcher.step (fun _ => 255) pushFetcher).fifo
        = pushFetcher.fifo ++ (List.range 8).map (fun i => pushFetcher.tileData.getD i 0) :=
  ⟨(c10_pixel_range (fun _ => 255) 0 0 false 0 0 9 9 9 9 9 9 9 9).1 1 (by decide),
   (c10_pixel_range (fun _ => 255) 0 0 false 0 0 9 9 9 9 9 9 9 9).2.1
     [1, 1, 1, 1, 1, 1, 1, 1] (by decide) 3 (by decide),
   (c10_pixel_range (fun _ => 255) 0 0 false 0 0 9 9 9 9 9 9 9 9).2.2
     pushFetcher rfl (by decide)⟩
